import Mathlib

/-!
Verification development for the TradeGuru scoring-and-monitoring engine
(`backend/` of the tradeguru_mvp repository).

Modelling conventions, used throughout:
* Python floats are idealized as exact rationals (`ℚ`); quantities that pandas
  may compute as NaN are modelled as `Option ℚ`, with `none` standing for NaN.
* `Python round(x, d)` is modelled by `roundTo d`; its behaviour at exact
  decimal midpoints (Python rounds half to even, `roundTo` rounds half up)
  differs only at exact ties, which no input considered here produces.
* Stock symbols are abstracted as naturals (`Symbol`), ordered as their
  lexicographic string order would order them; only equality and order of
  symbols are ever used by the modelled code.
* `Python list.sort(key=k, reverse=True)` / `sorted(..., reverse=True)` are
  stable sorts and are modelled by `List.insertionSort` (also stable) with the
  corresponding relation.
-/

namespace TG

/-- Symbols are abstracted as naturals; their `<` stands for lexicographic
string order on ticker names. -/
abbrev Symbol := Nat

/-- Models Python `round(x, d)` on rationals (half-up convention; see the
file-level notes on exact midpoints). -/
def roundTo (d : Nat) (q : ℚ) : ℚ := (⌊q * 10 ^ d + 1 / 2⌋ : ℚ) / 10 ^ d

/-- Python's built-in `min` over a non-empty list (the `[]` case is never
reached by the modelled code, which returns early on empty batches). -/
def pymin : List ℚ → ℚ
  | [] => 0
  | [x] => x
  | x :: y :: xs => min x (pymin (y :: xs))

/-- Python's built-in `max` over a non-empty list. -/
def pymax : List ℚ → ℚ
  | [] => 0
  | [x] => x
  | x :: y :: xs => max x (pymax (y :: xs))

/-!
Embedding of `backend/utils/score.py`.

A feature snapshot is modelled as a record holding exactly the keys that
`score_from_features` reads; the `dict.get` defaults of the source appear as
field default values (in the pipeline every key is always present).
-/

/-- Feature dictionary as consumed by `score_from_features`
(`backend/utils/score.py`); field defaults mirror the `f.get(key, default)`
defaults of the source. -/
structure Features where
  symbol : Symbol := 0
  intraday_pct : ℚ := 0
  vol_strength : ℚ := 0
  vol_zscore : ℚ := 0
  volatility : ℚ := 0
  sr_score : ℚ := 0
  buy_confidence : ℚ := 1 / 2
  macd_trend : Int := 0
  ma_diff : ℚ := 0
  rsi : ℚ := 50
deriving DecidableEq, Repr

/-- A scored entry `{**f, "score": s}` produced by `score_from_features`. -/
structure Scored where
  feats : Features
  score : ℚ
deriving DecidableEq, Repr

/-- `normalize` from `backend/utils/score.py`. -/
def normalize (x minv maxv : ℚ) : ℚ :=
  if maxv = minv then 1 / 2 else (x - minv) / (maxv - minv)

/-- The per-batch minima and maxima computed at the top of
`score_from_features`. -/
structure BatchStats where
  min_intr : ℚ
  max_intr : ℚ
  min_vols : ℚ
  max_vols : ℚ
  min_vz : ℚ
  max_vz : ℚ
  min_vlt : ℚ
  max_vlt : ℚ
  min_sr : ℚ
  max_sr : ℚ
  min_bc : ℚ
  max_bc : ℚ
deriving Repr

/-- Extraction of the per-feature min/max lists of `score_from_features`. -/
def batchStats (features_list : List Features) : BatchStats :=
  { min_intr := pymin (features_list.map (·.intraday_pct))
    max_intr := pymax (features_list.map (·.intraday_pct))
    min_vols := pymin (features_list.map (·.vol_strength))
    max_vols := pymax (features_list.map (·.vol_strength))
    min_vz := pymin (features_list.map (·.vol_zscore))
    max_vz := pymax (features_list.map (·.vol_zscore))
    min_vlt := pymin (features_list.map (·.volatility))
    max_vlt := pymax (features_list.map (·.volatility))
    min_sr := pymin (features_list.map (·.sr_score))
    max_sr := pymax (features_list.map (·.sr_score))
    min_bc := pymin (features_list.map (·.buy_confidence))
    max_bc := pymax (features_list.map (·.buy_confidence)) }

/-- The body of the `for f in features_list` loop of `score_from_features`:
hard volume filter, batch-relative normalization, weighted sum, volume boost,
rounding to four decimals. -/
def scoreEntry (st : BatchStats) (f : Features) : Scored :=
  if f.vol_strength < 1 / 2 then ⟨f, 0⟩
  else
    let s_intr := normalize f.intraday_pct st.min_intr st.max_intr
    let s_vol := normalize f.vol_strength st.min_vols st.max_vols
    let s_vz := normalize f.vol_zscore st.min_vz st.max_vz
    let s_vlt := 1 - normalize f.volatility st.min_vlt st.max_vlt
    let s_sr := normalize f.sr_score st.min_sr st.max_sr
    let s_macd : ℚ := if f.macd_trend = 1 then 1 else 0
    let s_trend : ℚ := if 0 < f.ma_diff then 1 else 0
    let s_rsi : ℚ := if 70 < f.rsi then 1 / 5 else 1 - |f.rsi - 50| / 50
    let s_bc := normalize f.buy_confidence st.min_bc st.max_bc
    let vol_boost : ℚ := if 2 ≤ f.vol_strength then 1 / 20 else 0
    let score :=
      22 / 100 * s_intr + 18 / 100 * s_vol + 7 / 100 * s_vz +
      10 / 100 * s_macd + 6 / 100 * s_rsi + 5 / 100 * s_trend +
      9 / 100 * s_vlt + 9 / 100 * s_sr + 14 / 100 * s_bc + vol_boost
    ⟨f, roundTo 4 score⟩

/-- Descending-by-score order used by the final sort of
`score_from_features`. -/
def scoreGE (a b : Scored) : Prop := b.score ≤ a.score

instance : DecidableRel scoreGE := fun a b => inferInstanceAs (Decidable (b.score ≤ a.score))

instance : IsTotal Scored scoreGE := ⟨fun a b => le_total b.score a.score⟩

instance : IsTrans Scored scoreGE := ⟨fun _ _ _ h1 h2 => le_trans h2 h1⟩

/-- `score_from_features` from `backend/utils/score.py`: empty-batch early
return, per-entry scoring, then a stable descending sort by score
(`sorted(..., key=score, reverse=True)`). -/
def score_from_features (features_list : List Features) : List Scored :=
  match features_list with
  | [] => []
  | _ :: _ =>
    ((features_list.map (scoreEntry (batchStats features_list))).insertionSort scoreGE)

/-- A candidate that attains every batch maximum (and the batch minimum of
volatility) while earning the volume boost; paired with `weakCand` below it
scores `1.05`. -/
def strongCand : Features where
  symbol := 1
  intraday_pct := 10
  vol_strength := 3
  vol_zscore := 3
  volatility := 0
  sr_score := 1
  buy_confidence := 90
  macd_trend := 1
  ma_diff := 1
  rsi := 50

/-- A candidate supplying the opposite batch extremes for `strongCand`. -/
def weakCand : Features where
  symbol := 2
  intraday_pct := 0
  vol_strength := 1 / 2
  vol_zscore := 0
  volatility := 1
  sr_score := 0
  buy_confidence := 10
  macd_trend := 0
  ma_diff := 0
  rsi := 50

/-- A zero-volume candidate with lexically larger symbol, listed first. -/
def tieCandB : Features := { symbol := 2, vol_strength := 0 }

/-- A zero-volume candidate with lexically smaller symbol, listed second. -/
def tieCandA : Features := { symbol := 1, vol_strength := 0 }

/-- A generic single candidate passing the volume filter, used to evaluate
the singleton-batch score formula. -/
def soloCand : Features where
  symbol := 5
  intraday_pct := 7
  vol_strength := 1
  vol_zscore := 2
  volatility := 3
  sr_score := 1 / 3
  buy_confidence := 44
  macd_trend := 1
  ma_diff := 1
  rsi := 60

/-!
Embedding of the quote cache and of `_fetch_and_compute`
(`backend/scheduler.py`).

`_PRICE_CACHE[symbol] = (timestamp, feats)`; timestamps are seconds as `ℚ`.
The per-attempt body (`fetch_intraday` + `compute_features` + the dict
backfills) performs external I/O, so it is abstracted as an oracle giving, for
each attempt number, one of: a computed snapshot (`ok`), a raised exception
whose message matches the rate-limit test
(`"Too Many Requests" in msg or "rate limit" in msg.lower()`) or not
(`exn rateLimited`), or a falsy `feats` (`nofeats`, e.g. empty data), in which
case the loop falls through to the next attempt without sleeping.  The result
record also reports the observable effects: how many real fetch attempts ran
and which backoff sleeps occurred.  Of the successful-fetch dict backfills
only the symbol assignment is retained (the `.NS` strip is the identity on
abstracted symbols); the `last_price`/`intraday_pct`/`buy_confidence`/`ts`
backfills touch fields this development never reads.
-/

/-- The module-level `_PRICE_CACHE` mapping a symbol to its capture time and
cached feature snapshot. -/
abbrev PriceCache := List (Symbol × ℚ × Features)

/-- Dictionary lookup `_PRICE_CACHE.get(symbol)`. -/
def cacheGet : PriceCache → Symbol → Option (ℚ × Features)
  | [], _ => none
  | (s, t, f) :: rest, sym => if s = sym then some (t, f) else cacheGet rest sym

/-- Dictionary assignment `_PRICE_CACHE[symbol] = (now, feats)`. -/
def cachePut : PriceCache → Symbol → ℚ → Features → PriceCache
  | [], sym, t, f => [(sym, t, f)]
  | (s, t0, f0) :: rest, sym, t, f =>
    if s = sym then (sym, t, f) :: rest else (s, t0, f0) :: cachePut rest sym t f

/-- `CACHE_TTL = timedelta(seconds=90)` (default `PRICE_CACHE_TTL_SEC`). -/
def CACHE_TTL : ℚ := 90

/-- Outcome of one attempt of the fetch-and-compute body, classified exactly
as the source's exception handler classifies it. -/
inductive FetchOutcome where
  | ok (feats : Features)
  | exn (rateLimited : Bool)
  | nofeats
deriving DecidableEq, Repr

/-- Result of `_fetch_and_compute`, together with its observable effects
(number of real fetch attempts, backoff sleeps performed). -/
structure FetchResult where
  result : Option Features
  cache : PriceCache
  fetchCalls : Nat
  sleeps : List ℚ
deriving DecidableEq, Repr

/-- The `for attempt in range(1, retries+1)` loop of `_fetch_and_compute`:
success stores the snapshot in the cache and returns it; a rate-limited
exception sleeps `backoff * attempt` and retries; any other exception breaks
out (returning `None` after the loop); a falsy `feats` falls through to the
next attempt. -/
def fetchLoop (oracle : Nat → FetchOutcome) (cache : PriceCache) (now : ℚ) (sym : Symbol)
    (backoff : ℚ) : Nat → Nat → Nat → List ℚ → FetchResult
  | _, 0, calls, sleeps => ⟨none, cache, calls, sleeps⟩
  | attempt, remaining + 1, calls, sleeps =>
    match oracle attempt with
    | .ok f =>
      let f1 := { f with symbol := sym }
      ⟨some f1, cachePut cache sym now f1, calls + 1, sleeps⟩
    | .exn true =>
      fetchLoop oracle cache now sym backoff (attempt + 1) remaining (calls + 1)
        (sleeps ++ [backoff * (attempt : ℚ)])
    | .exn false => ⟨none, cache, calls + 1, sleeps⟩
    | .nofeats => fetchLoop oracle cache now sym backoff (attempt + 1) remaining (calls + 1) sleeps

/-- `_fetch_and_compute(symbol)` with the default `retries=3, backoff=2`:
return the cached snapshot if it is younger than `CACHE_TTL`, otherwise run
the retry loop. -/
def fetch_and_compute (cache : PriceCache) (now : ℚ) (sym : Symbol)
    (oracle : Nat → FetchOutcome) : FetchResult :=
  match cacheGet cache sym with
  | some (t, f) =>
    if now - t < CACHE_TTL then ⟨some f, cache, 0, []⟩
    else fetchLoop oracle cache now sym 2 1 3 0 []
  | none => fetchLoop oracle cache now sym 2 1 3 0 []

/-- An oracle whose first attempt raises a non-rate-limited (transient)
exception and which would succeed on any later attempt. -/
def transientOracle : Nat → FetchOutcome :=
  fun n => if n = 1 then .exn false else .ok soloCand

/-- An oracle that is rate-limited on the first two attempts and succeeds on
the third. -/
def rateLimitedTwiceOracle : Nat → FetchOutcome :=
  fun n => if n ≤ 2 then .exn true else .ok soloCand

/-!
Embedding of the top-picks persistence and new-leader notification
(`backend/scheduler.py`: `upsert_all_stock`, `get_current_top_scores`,
`compute_top_picks`, `run_top_picks_once`).

`compute_top_picks` upserts every scored row into the `all_stocks` table and
returns the scored list; `run_top_picks_once` then reads the current top
scores back from that (already updated) table and decides whether to emit the
new-leader notification.  The model takes the scored list as input (the
fetch/score stage is covered by the embeddings above) and treats the SQLite
writes as always succeeding.
-/

/-- The `all_stocks` table: one row per symbol (its PRIMARY KEY) carrying the
latest score; the remaining columns are never read by the notification
logic. -/
abbrev StockTable := List (Symbol × ℚ)

/-- `upsert_all_stock`: `INSERT ... ON CONFLICT(symbol) DO UPDATE`. -/
def upsert_all_stock : StockTable → Symbol → ℚ → StockTable
  | [], sym, sc => [(sym, sc)]
  | (s, sc0) :: rest, sym, sc =>
    if s = sym then (sym, sc) :: rest else (s, sc0) :: upsert_all_stock rest sym sc

/-- Descending order on table rows by score, used by
`get_current_top_scores`. -/
def rowGE (a b : Symbol × ℚ) : Prop := b.2 ≤ a.2

instance : DecidableRel rowGE := fun a b => inferInstanceAs (Decidable (b.2 ≤ a.2))

/-- `get_current_top_scores`: `SELECT symbol, score FROM all_stocks ORDER BY
score DESC LIMIT n`. -/
def get_current_top_scores (t : StockTable) (limit : Nat) : List (Symbol × ℚ) :=
  (t.insertionSort rowGE).take limit

/-- Observable outcome of one `run_top_picks_once` cycle: whether the
new-leader notification fired, whether `save_top_picks` ran, and the resulting
`all_stocks` table. -/
structure TopPicksRun where
  notified : Bool
  savedTopPicks : Bool
  table : StockTable
deriving DecidableEq, Repr

/-- `run_top_picks_once` after `compute_top_picks`: upsert all scored rows
(`TOP_N = 5`), read the current top scores back from the updated table, treat
an empty read or a zero best as a first run (save, no notification), and
otherwise notify if and only if the new best score exceeds the read-back best
by more than `0.05`. -/
def run_top_picks_once (table : StockTable) (scored : List Scored) : TopPicksRun :=
  match scored with
  | [] => ⟨false, false, table⟩
  | new_best :: _ =>
    let table1 := scored.foldl (fun t p => upsert_all_stock t p.feats.symbol p.score) table
    let current_tops := get_current_top_scores table1 5
    let first_run := current_tops.isEmpty
    let prev_best_score := (current_tops.headD (0, 0)).2
    if first_run ∨ prev_best_score = 0 then ⟨false, true, table1⟩
    else if prev_best_score + 1 / 20 < new_best.score then ⟨true, true, table1⟩
    else ⟨false, false, table1⟩

/-!
The milestone/stop position monitor.  The repository declares the richer
positions schema (`predicted_max`, `soft_stop_pct`, `hard_stop_pct`,
`profit_alerts_sent`, `stop_alerts_sent` in `backend/routes/buy_stock.py` and
`backend/db_migration.py`) and the `notification_cooldown` table
(`backend/db_init.py`), and both `backend/routes/buy_stock.py` and
`backend/routes/sell_stock.py` import and call `monitor_position` from
`backend/scheduler.py` — but the `monitor_position` function itself is absent
from the source tree (the shipped `scheduler.py` only contains the simpler
`monitor_positions_job`).  The monitor definitions below are therefore
modelled from the spec (§4.6).
-/

/-- Position lifecycle status. -/
inductive PosStatus where
  | OPEN
  | CLOSED
deriving DecidableEq, Repr

/-- The two stop-alert keys recorded in `stop_alerts_sent`. -/
inductive StopKey where
  | soft
  | hard
deriving DecidableEq, Repr

/-- A monitored position (the columns of the `positions` table read by the
monitor); `profitAlertsSent` holds price-keyed milestone identities. -/
structure Position where
  symbol : Symbol
  entryPrice : ℚ
  predictedMax : Option ℚ
  status : PosStatus
  softStopPct : ℚ
  hardStopPct : ℚ
  profitAlertsSent : List ℚ
  stopAlertsSent : List StopKey
deriving DecidableEq, Repr

/-- Alerts the monitor can emit. -/
inductive Alert where
  | profitMilestone (sym : Symbol) (milestonePrice : ℚ)
  | stopLoss (sym : Symbol) (key : StopKey)
deriving DecidableEq, Repr

/-- Modelled from the spec: the ordered milestone fractions
`{0.25, 0.50, 0.75, 0.95, 0.97, 0.985}` of §4.6 step 2. -/
def MILESTONE_FRACTIONS : List ℚ :=
  [1 / 4, 1 / 2, 3 / 4, 19 / 20, 97 / 100, 197 / 200]

/-- Modelled from the spec: one milestone check of §4.6 step 2 — alert and
record the price-keyed identity if the current price has reached the
milestone and the key is not already recorded. -/
def milestoneStep (sym : Symbol) (entry pmax current : ℚ)
    (acc : List ℚ × List Alert) (frac : ℚ) : List ℚ × List Alert :=
  let milestonePrice := entry + (pmax - entry) * frac
  if milestonePrice ≤ current ∧ milestonePrice ∉ acc.1 then
    (acc.1 ++ [milestonePrice], acc.2 ++ [Alert.profitMilestone sym milestonePrice])
  else acc

/-- Modelled from the spec: the milestone pass of §4.6 step 2 — active only
when `predictedMax` is set and exceeds the entry price. -/
def milestoneScan (pos : Position) (current : ℚ) : List ℚ × List Alert :=
  match pos.predictedMax with
  | some pmax =>
    if pos.entryPrice < pmax then
      MILESTONE_FRACTIONS.foldl (milestoneStep pos.symbol pos.entryPrice pmax current)
        (pos.profitAlertsSent, [])
    else (pos.profitAlertsSent, [])
  | none => (pos.profitAlertsSent, [])

/-- Modelled from the spec: the stop pass of §4.6 step 3 — soft then hard
stop, evaluated independently (not short-circuited), each recorded at most
once. -/
def stopScan (pos : Position) (current : ℚ) : List StopKey × List Alert :=
  let softStopPrice := pos.entryPrice * (1 - pos.softStopPct / 100)
  let hardStopPrice := pos.entryPrice * (1 - pos.hardStopPct / 100)
  let afterSoft :=
    if current ≤ softStopPrice ∧ StopKey.soft ∉ pos.stopAlertsSent then
      (pos.stopAlertsSent ++ [StopKey.soft], [Alert.stopLoss pos.symbol StopKey.soft])
    else (pos.stopAlertsSent, [])
  if current ≤ hardStopPrice ∧ StopKey.hard ∉ afterSoft.1 then
    (afterSoft.1 ++ [StopKey.hard], afterSoft.2 ++ [Alert.stopLoss pos.symbol StopKey.hard])
  else afterSoft

/-- Modelled from the spec: `monitor_position` (absent from the source tree;
§4.6 steps 2–3).  One monitor evaluation of a position at the current price:
for an OPEN position run the milestone pass and the stop pass and commit the
grown alert-sent sets; a non-OPEN position is left untouched. -/
def monitor_position (pos : Position) (current : ℚ) : Position × List Alert :=
  if pos.status ≠ PosStatus.OPEN then (pos, [])
  else
    ({ pos with
        profitAlertsSent := (milestoneScan pos current).1
        stopAlertsSent := (stopScan pos current).1 },
      (milestoneScan pos current).2 ++ (stopScan pos current).2)

/-- A sequence of monitor cycles over successive prices, collecting all
emitted alerts. -/
def monitorTicks (pos : Position) (prices : List ℚ) : Position × List Alert :=
  prices.foldl (fun acc p =>
    ((monitor_position acc.1 p).1, acc.2 ++ (monitor_position acc.1 p).2)) (pos, [])

/-- The position of the claim's concrete scenario: `entryPrice = 100`,
`predictedMax = 200`, freshly opened. -/
def demoPosition : Position :=
  ⟨3, 100, some 200, PosStatus.OPEN, 3, 7, [], []⟩

/-- The same position after the 25% milestone (price 125) has been alerted
and recorded. -/
def demoPositionSent : Position :=
  ⟨3, 100, some 200, PosStatus.OPEN, 3, 7, [125], []⟩

/-!
Modelled from the spec: the "approaching stop" cooldown throttle (§4.6 step 4
and the `NotificationCooldownEntry` data model).  The backing table
`notification_cooldown (symbol PRIMARY KEY, last_warn_ts)` is provisioned by
`backend/db_init.py`, but no shipped code reads or writes it; the throttle is
modelled from the spec's words.
-/

/-- The `notification_cooldown` table: symbol → last warning timestamp
(seconds). -/
abbrev CooldownTable := List (Symbol × ℚ)

/-- Lookup of a symbol's `last_warn_ts`. -/
def lookupWarnTs : CooldownTable → Symbol → Option ℚ
  | [], _ => none
  | (s, t) :: rest, sym => if s = sym then some t else lookupWarnTs rest sym

/-- Upsert of a symbol's `last_warn_ts`. -/
def putWarnTs : CooldownTable → Symbol → ℚ → CooldownTable
  | [], sym, t => [(sym, t)]
  | (s, t0) :: rest, sym, t =>
    if s = sym then (sym, t) :: rest else (s, t0) :: putWarnTs rest sym t

/-- Modelled from the spec: cooldown window, default 15 minutes (seconds). -/
def COOLDOWN_WINDOW : ℚ := 15 * 60

/-- Modelled from the spec: the secondary fraction of the stop distance
(design default 60%). -/
def SECONDARY_STOP_FRACTION : ℚ := 3 / 5

/-- Result of one throttled-warning evaluation. -/
structure WarnResult where
  warned : Bool
  table : CooldownTable
deriving DecidableEq, Repr

/-- Modelled from the spec: the throttled "approaching stop" warning (§4.6
step 4, absent from the source tree).  If the unrealized loss exceeds the
secondary fraction (60%) of the hard-stop distance and the cooldown window
has elapsed since the symbol's last warning (or none is recorded), emit the
warning and record `now` as the symbol's `last_warn_ts`; otherwise change
nothing. -/
def warnCondition (tbl : CooldownTable) (now : ℚ) (sym : Symbol)
    (entry current hardStopPct : ℚ) : Bool :=
  let stopDistance := entry * hardStopPct / 100
  let lossExceeds : Bool := SECONDARY_STOP_FRACTION * stopDistance < entry - current
  let elapsed : Bool :=
    match lookupWarnTs tbl sym with
    | none => true
    | some t => COOLDOWN_WINDOW ≤ now - t
  lossExceeds && elapsed

/-- Modelled from the spec: the throttled warning itself — when the condition
holds, warn and record `now`; otherwise change nothing. -/
def approaching_stop_warn (tbl : CooldownTable) (now : ℚ) (sym : Symbol)
    (entry current hardStopPct : ℚ) : WarnResult :=
  if warnCondition tbl now sym entry current hardStopPct then ⟨true, putWarnTs tbl sym now⟩
  else ⟨false, tbl⟩

/-!
Embedding of the Feature Engine (`backend/utils/market.py` and
`backend/utils/volume_utils.py`).

Conventions: a price/volume series is a `List ℚ`; pandas values that can be
NaN are `Option ℚ` with `none` standing for NaN (a rolling window whose span
is not yet filled, or an operand that was NaN); comparisons against NaN are
false, as in Python (`nanLt`).  `np.std` / `rolling(..).std()` need a real
square root, which is not rational, so the embedding is parametric in a
square-root function `sqrt : ℚ → ℚ`; every theorem about `compute_features`
holds for every such function (the claims settled here concern only whether a
snapshot is produced at all).  `np.sort` and Python `list.sort` are modelled
by `List.insertionSort` as before.
-/

/-- One OHLCV bar (row of the fetched DataFrame); the five required columns
are fields, so the source's missing-column check is vacuous in the typed
embedding. -/
structure Bar where
  Open : ℚ
  High : ℚ
  Low : ℚ
  Close : ℚ
  Volume : ℚ
deriving DecidableEq, Repr

/-- `np.mean` / `Series.mean` (callers guarantee non-empty input). -/
def npMean (l : List ℚ) : ℚ := l.sum / l.length

/-- Population variance, the square of `np.std` (ddof = 0). -/
def npVar (l : List ℚ) : ℚ := ((l.map (fun x => (x - npMean l) ^ 2)).sum) / l.length

/-- Sample variance, the square of `Series.rolling(..).std()` (ddof = 1). -/
def sampleVar (l : List ℚ) : ℚ :=
  ((l.map (fun x => (x - npMean l) ^ 2)).sum) / ((l.length : ℚ) - 1)

/-- `Series.diff().dropna()`: consecutive differences. -/
def diffs : List ℚ → List ℚ
  | [] => []
  | x :: xs => List.zipWith (fun a b => b - a) (x :: xs) xs

/-- `Series.rolling(w).mean()`: `none` while the window is unfilled. -/
def rollingMean (w : Nat) (l : List ℚ) : List (Option ℚ) :=
  (List.range l.length).map (fun i =>
    if w ≤ i + 1 then some (npMean ((l.take (i + 1)).drop (i + 1 - w))) else none)

/-- `compute_rsi` from `backend/utils/market.py` (Wilder RSI over rolling
simple means of clipped deltas); returns `some 50` on an empty RSI series and
the possibly-NaN last value otherwise. -/
def compute_rsi (close : List ℚ) : Option ℚ :=
  let delta := diffs close
  let up := delta.map (fun d => max d 0)
  let down := delta.map (fun d => -(min d 0))
  let ma_up := rollingMean 14 up
  let ma_down := rollingMean 14 down
  let rs := List.zipWith (fun mu md =>
    match mu, md with
    | some mu, some md => some (mu / (md + 1 / 1000000000))
    | _, _ => none) ma_up ma_down
  let rsi := rs.map (Option.map (fun r => 100 - 100 / (1 + r)))
  if rsi.isEmpty then some 50 else rsi.getLastD none

/-- Exponentially-weighted recursion `y_t = (1-a)·y_(t-1) + a·x_t`. -/
def ewmRec (a : ℚ) : ℚ → List ℚ → List ℚ
  | _, [] => []
  | prev, x :: xs => ((1 - a) * prev + a * x) :: ewmRec a ((1 - a) * prev + a * x) xs

/-- `Series.ewm(span=s, adjust=False).mean()`. -/
def ewm (span : ℚ) : List ℚ → List ℚ
  | [] => []
  | x :: xs => x :: ewmRec (2 / (span + 1)) x xs

/-- `compute_macd` from `backend/utils/market.py` (MACD 12/26/9); the callers
guarantee a non-empty series, so the total stand-in default `0` for `.iloc[-1]`
of an empty series is never reached. -/
def compute_macd (close : List ℚ) : ℚ × ℚ × ℚ :=
  let ema12 := ewm 12 close
  let ema26 := ewm 26 close
  let macd_line := List.zipWith (fun a b => a - b) ema12 ema26
  let signal := ewm 9 macd_line
  let hist := List.zipWith (fun a b => a - b) macd_line signal
  (macd_line.getLastD 0, signal.getLastD 0, hist.getLastD 0)

/-- `SR_LOOKBACK = 75`. -/
def SR_LOOKBACK : Nat := 75

/-- `CLUSTER_TOLERANCE = 0.01`. -/
def CLUSTER_TOLERANCE : ℚ := 1 / 100

/-- `MIN_SWING_SEPARATION = 2`. -/
def MIN_SWING_SEPARATION : Nat := 2

/-- Loop body of `_filter_close_indices`, carrying the last kept index. -/
def filterCloseGo (min_sep : Nat) : Nat → List Nat → List Nat
  | _, [] => []
  | lastIdx, idx :: rest =>
    if min_sep ≤ idx - lastIdx then idx :: filterCloseGo min_sep idx rest
    else filterCloseGo min_sep lastIdx rest

/-- `_filter_close_indices` from `backend/utils/market.py`. -/
def _filter_close_indices (indices : List Nat) (min_sep : Nat) : List Nat :=
  match indices with
  | [] => []
  | i :: rest => i :: filterCloseGo min_sep i rest

/-- `find_swings` from `backend/utils/market.py` (3-point swing detection on
indices `1 .. n-2`; the source's `elif` split is equivalent to two filters
because the high and low conditions are mutually exclusive). -/
def find_swings (vals : List ℚ) : List Nat × List Nat :=
  let n := vals.length
  if n < 3 then ([], [])
  else
    let highs := ((List.range (n - 1)).drop 1).filter (fun i =>
      decide (vals.getD (i - 1) 0 < vals.getD i 0) &&
      decide (vals.getD (i + 1) 0 < vals.getD i 0))
    let lows := ((List.range (n - 1)).drop 1).filter (fun i =>
      decide (vals.getD i 0 < vals.getD (i - 1) 0) &&
      decide (vals.getD i 0 < vals.getD (i + 1) 0))
    (_filter_close_indices highs MIN_SWING_SEPARATION,
     _filter_close_indices lows MIN_SWING_SEPARATION)

/-- A price cluster built by `cluster_levels`. -/
structure Cluster where
  center : ℚ
  count : Nat
  members : List ℚ
deriving DecidableEq, Repr

/-- The grouping loop of `cluster_levels` over the ascending price list. -/
def clusterGo (tol : ℚ) : List ℚ → List ℚ → List (List ℚ)
  | current, [] => [current]
  | current, p :: rest =>
    if |p - npMean current| ≤ tol * npMean current then clusterGo tol (current ++ [p]) rest
    else current :: clusterGo tol [p] rest

/-- The `(-count, center)` ascending sort key of `cluster_levels`. -/
def clusterLE (a b : Cluster) : Prop :=
  b.count < a.count ∨ (a.count = b.count ∧ a.center ≤ b.center)

instance : DecidableRel clusterLE := fun a b =>
  inferInstanceAs (Decidable (b.count < a.count ∨ (a.count = b.count ∧ a.center ≤ b.center)))

/-- `cluster_levels` from `backend/utils/market.py`: sort the prices, group
within the tolerance band of the running cluster mean, and order clusters by
descending count then ascending center. -/
def cluster_levels (prices : List ℚ) (tol : ℚ) : List Cluster :=
  match List.insertionSort (fun a b => a ≤ b) prices with
  | [] => []
  | p0 :: rest =>
    let clusters := clusterGo tol [p0] rest
    let cluster_info := clusters.map (fun c => (⟨npMean c, c.length, c⟩ : Cluster))
    List.insertionSort clusterLE cluster_info

/-- A support/resistance zone; `strength` is `0` until the normalization pass
of `compute_sr_zones` fills it (mirroring the two-stage construction of the
source). -/
structure Zone where
  center : ℚ
  count : Nat
  raw_strength : ℚ
  members : List ℚ
  strength : ℚ
deriving DecidableEq, Repr

/-- `cluster_strength` from `backend/utils/market.py`: volume-weighted raw
strength of the cluster's members. -/
def cluster_strength (cl : Cluster) (swing_prices swing_vols : List ℚ) : Zone :=
  let center := cl.center
  let mems := (swing_prices.zip swing_vols).filter
    (fun pv => decide (|pv.1 - center| ≤ CLUSTER_TOLERANCE * center))
  { center := center
    count := mems.length
    raw_strength := (mems.map (fun pv => pv.2)).sum
    members := mems.map (fun pv => pv.1)
    strength := 0 }

/-- `compute_sr_zones` from `backend/utils/market.py`.  The source also binds
`vol_z = compute_volume_zscore(vol)` here, but that binding is never used, so
it is omitted. -/
def compute_sr_zones (df : List Bar) : List Zone × List Zone :=
  let n := min df.length SR_LOOKBACK
  let recent := df.drop (df.length - n)
  let close := recent.map (fun b => b.Close)
  let high := recent.map (fun b => b.High)
  let low := recent.map (fun b => b.Low)
  let vol := recent.map (fun b => b.Volume)
  let ids := find_swings close
  let swing_high_prices := ids.1.map (fun i => high.getD i 0)
  let swing_high_vols := ids.1.map (fun i => vol.getD i 0)
  let swing_low_prices := ids.2.map (fun i => low.getD i 0)
  let swing_low_vols := ids.2.map (fun i => vol.getD i 0)
  let resistance_clusters := cluster_levels swing_high_prices CLUSTER_TOLERANCE
  let support_clusters := cluster_levels swing_low_prices CLUSTER_TOLERANCE
  let res_zones := resistance_clusters.map
    (fun c => cluster_strength c swing_high_prices swing_high_vols)
  let sup_zones := support_clusters.map
    (fun c => cluster_strength c swing_low_prices swing_low_vols)
  let all_strengths :=
    ((res_zones ++ sup_zones).map (fun z => z.raw_strength)).filter (fun s => decide (0 < s))
  let max_s := if all_strengths.isEmpty then 1 else pymax all_strengths
  let normZone := fun (z : Zone) =>
    { z with strength := z.raw_strength / (max_s + 1 / 1000000000) }
  (sup_zones.map normZone, res_zones.map normZone)

/-- A comparison against a possibly-NaN value: false when the value is NaN,
as in Python. -/
def nanLt (a : Option ℚ) (c : ℚ) : Bool :=
  match a with
  | none => false
  | some q => q < c

/-- `compute_breakout_bounce_scores` from `backend/utils/market.py` (the
`recent_close` parameter is passed by the caller but never read by the
body). -/
def compute_breakout_bounce_scores (last_price : ℚ)
    (support_zones resistance_zones : List Zone) (_recent_close : List ℚ)
    (rsi : Option ℚ) : ℚ × ℚ × ℚ :=
  let breakout0 : ℚ :=
    match resistance_zones with
    | [] => 0
    | r :: _ =>
      if r.center * (101 / 100) < last_price then 1
      else if r.center < last_price then 3 / 5
      else 0
  let bounce0 : ℚ :=
    match support_zones with
    | [] => 0
    | s :: _ =>
      if s.center ≤ last_price ∧ last_price ≤ s.center * (101 / 100) then
        (if nanLt rsi 60 then 4 / 5 else 1 / 2)
      else if s.center * (99 / 100) ≤ last_price ∧ last_price < s.center then 1 / 5
      else 0
  let breakout1 :=
    match resistance_zones with
    | [] => breakout0
    | r :: _ => breakout0 * (1 / 2 + 1 / 2 * r.strength)
  let bounce1 :=
    match support_zones with
    | [] => bounce0
    | s :: _ => bounce0 * (1 / 2 + 1 / 2 * s.strength)
  let breakout := min (max breakout1 0) 1
  let bounce := min (max bounce1 0) 1
  (breakout, bounce, roundTo 4 (13 / 20 * breakout + 7 / 20 * bounce))

/-- The dictionary returned by `compute_volume_features`
(`backend/utils/volume_utils.py`). -/
structure VolFeatures where
  vol_mean_20 : ℚ
  vol_std_20 : ℚ
  vol_zscore : ℚ
  vol_surge : Nat
  vol_trend_5 : ℚ
  vol_trend_20 : ℚ
  vol_spike_ratio : ℚ
deriving DecidableEq, Repr

/-- `compute_slope`: the least-squares (np.polyfit degree-1) slope over
`xs = 0 .. len-1`; callers pass at least 5 points, so the denominator is
nonzero there. -/
def slopeQ (ys : List ℚ) : ℚ :=
  let m := (ys.length : ℚ)
  let xs := (List.range ys.length).map (fun i => (i : ℚ))
  let sx := xs.sum
  let sy := ys.sum
  let sxy := (List.zipWith (fun x y => x * y) xs ys).sum
  let sxx := (xs.map (fun x => x ^ 2)).sum
  (m * sxy - sx * sy) / (m * sxx - sx ^ 2)

/-- `compute_volume_features` from `backend/utils/volume_utils.py`. -/
def compute_volume_features (sqrt : ℚ → ℚ) (vol : List ℚ) : VolFeatures :=
  let n := vol.length
  if n < 5 then
    { vol_mean_20 := npMean vol
      vol_std_20 := sqrt (npVar vol)
      vol_zscore := 0
      vol_surge := 0
      vol_trend_5 := 0
      vol_trend_20 := 0
      vol_spike_ratio := 1 }
  else
    let last20 := if 20 ≤ n then vol.drop (n - 20) else vol
    let vol_mean_20 := npMean last20
    let sd := sqrt (npVar last20)
    let vol_std_20 := if 0 < sd then sd else 1
    let vol_now := vol.getLastD 0
    let vol_zscore := (vol_now - vol_mean_20) / vol_std_20
    let vol_surge : Nat := if vol_mean_20 + 2 * vol_std_20 < vol_now then 1 else 0
    let vol_trend_5 := slopeQ (vol.drop (n - 5))
    let vol_trend_20 := slopeQ last20
    let vol_spike_ratio := vol_now / (pymax last20 + 1 / 1000000000)
    { vol_mean_20 := vol_mean_20
      vol_std_20 := vol_std_20
      vol_zscore := roundTo 4 vol_zscore
      vol_surge := vol_surge
      vol_trend_5 := roundTo 6 vol_trend_5
      vol_trend_20 := roundTo 6 vol_trend_20
      vol_spike_ratio := roundTo 4 vol_spike_ratio }

/-- `compute_volume_signal` from `backend/utils/volume_utils.py`. -/
def compute_volume_signal (vf : VolFeatures) : ℚ :=
  let z := max (min (vf.vol_zscore / 5) 1) 0
  let spike := vf.vol_spike_ratio
  let surge : ℚ := if vf.vol_surge = 1 then 1 else 0
  let t5_norm := max (min (vf.vol_trend_5 * 200) 1) (-1)
  let t20_norm := max (min (vf.vol_trend_20 * 50) 1) (-1)
  let score :=
    35 / 100 * z + 30 / 100 * spike + 20 / 100 * surge +
    10 / 100 * max t5_norm 0 + 5 / 100 * max t20_norm 0
  roundTo 4 (max (min score 1) 0)

/-- `Series.pct_change()`: NaN at index 0, then relative changes. -/
def pct_change : List ℚ → List (Option ℚ)
  | [] => []
  | x :: xs => none :: List.zipWith (fun prev cur => some ((cur - prev) / prev)) (x :: xs) xs

/-- Collects a window of possibly-NaN values; `none` if any is NaN. -/
def allSome : List (Option ℚ) → Option (List ℚ)
  | [] => some []
  | none :: _ => none
  | some x :: rest =>
    match allSome rest with
    | some l => some (x :: l)
    | none => none

/-- `Series.rolling(w).std()` over a possibly-NaN series: NaN until the
window is filled with non-NaN values. -/
def rollingStd (sqrt : ℚ → ℚ) (w : Nat) (l : List (Option ℚ)) : List (Option ℚ) :=
  (List.range l.length).map (fun i =>
    if w ≤ i + 1 then
      match allSome ((l.take (i + 1)).drop (i + 1 - w)) with
      | some vals => some (sqrt (sampleVar vals))
      | none => none
    else none)

/-- The feature dictionary returned by `compute_features`
(`backend/utils/market.py`); `rsi` and `volatility` are the two possibly-NaN
entries (`volatility`'s `or 0` keeps NaN, since NaN is truthy in Python). -/
structure FeatureSnap where
  intraday_pct : ℚ
  ma_short : ℚ
  ma_long : ℚ
  ma_diff : ℚ
  vol_ratio : ℚ
  vol_strength : ℚ
  vol_20_mean : ℚ
  vol_20_std : ℚ
  vol_zscore : ℚ
  vol_surge : Nat
  vol_trend_5 : ℚ
  vol_trend_20 : ℚ
  vol_spike_ratio : ℚ
  vol_signal : ℚ
  rsi : Option ℚ
  macd : ℚ
  macd_signal : ℚ
  macd_hist : ℚ
  macd_trend : Nat
  volatility : Option ℚ
  sr_support_zones : List Zone
  sr_resistance_zones : List Zone
  breakout_score : ℚ
  bounce_score : ℚ
  sr_score : ℚ
  last_price : ℚ

/-- The body of `compute_features` on a non-empty frame. -/
def buildFeatures (sqrt : ℚ → ℚ) (bars : List Bar) : FeatureSnap :=
  let close := bars.map (fun b => b.Close)
  let vol := bars.map (fun b => b.Volume)
  let firstOpen := (bars.headD ⟨0, 0, 0, 0, 0⟩).Open
  let intraday_pct := (close.getLastD 0 - firstOpen) / firstOpen * 100
  let ma_short := if 3 ≤ close.length then npMean (close.drop (close.length - 3))
    else close.getLastD 0
  let ma_long := if 12 ≤ close.length then npMean (close.drop (close.length - 12))
    else close.getLastD 0
  let vf := compute_volume_features sqrt vol
  let vol_signal := compute_volume_signal vf
  let vol_now := vol.getLastD 0
  let vol_ratio := vol_now / (npMean vol + 1 / 1000000000)
  let vol_strength := vol_now / (vf.vol_mean_20 + 1 / 1000000000)
  let rsi := compute_rsi close
  let macds := compute_macd close
  let macd_trend : Nat := if macds.2.1 < macds.1 then 1 else 0
  let volatility := (rollingStd sqrt 10 (pct_change close)).getLastD none
  let zones := compute_sr_zones bars
  let last_price := close.getLastD 0
  let bb := compute_breakout_bounce_scores last_price zones.1 zones.2
    (close.drop (close.length - 10)) rsi
  { intraday_pct := roundTo 4 intraday_pct
    ma_short := ma_short
    ma_long := ma_long
    ma_diff := ma_short - ma_long
    vol_ratio := roundTo 4 vol_ratio
    vol_strength := roundTo 4 vol_strength
    vol_20_mean := vf.vol_mean_20
    vol_20_std := vf.vol_std_20
    vol_zscore := vf.vol_zscore
    vol_surge := vf.vol_surge
    vol_trend_5 := vf.vol_trend_5
    vol_trend_20 := vf.vol_trend_20
    vol_spike_ratio := vf.vol_spike_ratio
    vol_signal := vol_signal
    rsi := rsi.map (fun r => roundTo 2 r)
    macd := macds.1
    macd_signal := macds.2.1
    macd_hist := macds.2.2
    macd_trend := macd_trend
    volatility := volatility
    sr_support_zones := zones.1
    sr_resistance_zones := zones.2
    breakout_score := bb.1
    bounce_score := bb.2.1
    sr_score := bb.2.2
    last_price := roundTo 2 last_price }

/-- `compute_features` from `backend/utils/market.py`: `None` for an absent
or empty frame (the missing-column early return is vacuous in the typed
embedding), otherwise the computed snapshot. -/
def compute_features (sqrt : ℚ → ℚ) (df : Option (List Bar)) : Option FeatureSnap :=
  match df with
  | none => none
  | some [] => none
  | some bars => some (buildFeatures sqrt bars)

/-- A single OHLCV bar. -/
def oneBar : Bar := ⟨100, 101, 99, 100, 1000⟩

/-- A concrete square-root stand-in; it agrees with the real square root on
`0`, the only value the one-bar evaluation ever takes a root of. -/
def sqrtZero : ℚ → ℚ := fun _ => 0

/-! ## General lemmas about the numeric helpers -/

theorem pymin_le {l : List ℚ} {x : ℚ} (h : x ∈ l) : pymin l ≤ x := by
  induction l with
  | nil => cases h
  | cons a t ih =>
    cases t with
    | nil =>
      rcases List.mem_cons.mp h with h1 | h1
      · simp [pymin, h1]
      · cases h1
    | cons b t2 =>
      rcases List.mem_cons.mp h with h1 | h1
      · subst h1; exact min_le_left _ _
      · exact le_trans (min_le_right _ _) (ih h1)

theorem le_pymax {l : List ℚ} {x : ℚ} (h : x ∈ l) : x ≤ pymax l := by
  induction l with
  | nil => cases h
  | cons a t ih =>
    cases t with
    | nil =>
      rcases List.mem_cons.mp h with h1 | h1
      · simp [pymax, h1]
      · cases h1
    | cons b t2 =>
      rcases List.mem_cons.mp h with h1 | h1
      · subst h1; exact le_max_left _ _
      · exact le_trans (ih h1) (le_max_right _ _)

theorem normalize_bounds {x minv maxv : ℚ} (h1 : minv ≤ x) (h2 : x ≤ maxv) :
    0 ≤ normalize x minv maxv ∧ normalize x minv maxv ≤ 1 := by
  unfold normalize
  split
  · norm_num
  · rename_i hne
    have hlt : 0 < maxv - minv := by
      rcases lt_or_eq_of_le (le_trans h1 h2) with h | h
      · linarith
      · exact absurd h.symm hne
    constructor
    · apply div_nonneg <;> linarith
    · rw [div_le_one hlt]; linarith

theorem roundTo_mono (d : Nat) {a b : ℚ} (h : a ≤ b) : roundTo d a ≤ roundTo d b := by
  unfold roundTo
  have hp : (0 : ℚ) < 10 ^ d := by positivity
  rw [div_le_div_iff_of_pos_right hp]
  exact_mod_cast Int.floor_le_floor (by nlinarith)

theorem rsiComp_bounds {r : ℚ} (h : 0 ≤ r) :
    0 ≤ (if 70 < r then (1 : ℚ) / 5 else 1 - |r - 50| / 50) ∧
    (if 70 < r then (1 : ℚ) / 5 else 1 - |r - 50| / 50) ≤ 1 := by
  split
  · norm_num
  · rename_i h70
    have habs : |r - 50| ≤ 50 := abs_le.mpr ⟨by linarith, by linarith [not_lt.mp h70]⟩
    constructor
    · have : |r - 50| / 50 ≤ 1 := by rw [div_le_one] <;> linarith
      linarith
    · have : 0 ≤ |r - 50| / 50 := div_nonneg (abs_nonneg _) (by norm_num)
      linarith

/-- Every entry of the scorer's output arises from `scoreEntry` applied to a
member of the input batch. -/
theorem mem_score_from_features {fs : List Features} {s : Scored}
    (hs : s ∈ score_from_features fs) :
    ∃ f ∈ fs, s = scoreEntry (batchStats fs) f := by
  match fs with
  | [] => cases hs
  | g :: t =>
    rw [score_from_features] at hs
    rcases List.mem_map.mp ((List.mem_insertionSort scoreGE).mp hs) with ⟨f, hf, hval⟩
    exact ⟨f, hf, hval.symm⟩

/-! ## Claim theorems for the Scorer (`backend/utils/score.py`) -/

/-- C2: in every batch passed to `score_from_features`, every snapshot whose
`vol_strength` is below `0.5` is assigned score exactly `0`, regardless of the
batch-relative normalization of the remaining features. -/
theorem C2_hard_filter (fs : List Features) (s : Scored)
    (hs : s ∈ score_from_features fs) (hv : s.feats.vol_strength < 1 / 2) :
    s.score = 0 := by
  rcases mem_score_from_features hs with ⟨f, hf, rfl⟩
  rw [scoreEntry] at hv ⊢
  split at hv
  · rw [if_pos (by exact hv)]
  · rename_i hge
    exact absurd hv hge

/-- C2 witness: the all-default snapshot has `vol_strength = 0 < 0.5` and its
scored entry is `0`. -/
theorem C2_hard_filter_witness :
    ((score_from_features [({} : Features)]).headD ⟨{}, 1⟩).score = 0 :=
  C2_hard_filter [({} : Features)] _
    (by norm_num [score_from_features, batchStats, pymin, pymax, scoreEntry,
      List.insertionSort, List.orderedInsert, scoreGE])
    (by norm_num [score_from_features, batchStats, pymin, pymax, scoreEntry,
      List.insertionSort, List.orderedInsert, scoreGE])

/-- C3 counterexample: the two-candidate batch `[strongCand, weakCand]`
produces a top score of `1.05 > 1` (the nine weights sum to `1` and the volume
boost adds `0.05`), refuting the claim that every score lies in `[0, 1]`. -/
theorem C3_counterexample :
    1 < ((score_from_features [strongCand, weakCand]).headD ⟨{}, 0⟩).score := by
  norm_num [score_from_features, batchStats, pymin, pymax, scoreEntry, normalize,
    strongCand, weakCand, roundTo, List.insertionSort, List.orderedInsert, scoreGE]

/-- C3 as amended: for batches whose snapshots have nonnegative RSI (as the
feature engine produces), every score returned by `score_from_features` lies
in `[0, 1.05]` — the interval `[0, 1]` claimed by the spec is exceeded exactly
by the volume boost. -/
theorem C3_score_bounds (fs : List Features) (hrsi : ∀ f ∈ fs, 0 ≤ f.rsi)
    (s : Scored) (hs : s ∈ score_from_features fs) :
    0 ≤ s.score ∧ s.score ≤ 21 / 20 := by
  rcases mem_score_from_features hs with ⟨f, hf, rfl⟩
  rw [scoreEntry]
  split
  · exact ⟨le_refl 0, by norm_num⟩
  · rename_i hge
    have m1 : f.intraday_pct ∈ fs.map (·.intraday_pct) := List.mem_map_of_mem _ hf
    have m2 : f.vol_strength ∈ fs.map (·.vol_strength) := List.mem_map_of_mem _ hf
    have m3 : f.vol_zscore ∈ fs.map (·.vol_zscore) := List.mem_map_of_mem _ hf
    have m4 : f.volatility ∈ fs.map (·.volatility) := List.mem_map_of_mem _ hf
    have m5 : f.sr_score ∈ fs.map (·.sr_score) := List.mem_map_of_mem _ hf
    have m6 : f.buy_confidence ∈ fs.map (·.buy_confidence) := List.mem_map_of_mem _ hf
    have hintr := normalize_bounds (pymin_le m1) (le_pymax m1)
    have hvol := normalize_bounds (pymin_le m2) (le_pymax m2)
    have hvz := normalize_bounds (pymin_le m3) (le_pymax m3)
    have hvlt := normalize_bounds (pymin_le m4) (le_pymax m4)
    have hsr := normalize_bounds (pymin_le m5) (le_pymax m5)
    have hbc := normalize_bounds (pymin_le m6) (le_pymax m6)
    have hrs := rsiComp_bounds (hrsi f hf)
    have hmacd : (0 : ℚ) ≤ (if f.macd_trend = 1 then (1 : ℚ) else 0) ∧
        (if f.macd_trend = 1 then (1 : ℚ) else 0) ≤ 1 := by split <;> norm_num
    have htrend : (0 : ℚ) ≤ (if 0 < f.ma_diff then (1 : ℚ) else 0) ∧
        (if 0 < f.ma_diff then (1 : ℚ) else 0) ≤ 1 := by split <;> norm_num
    have hboost : (0 : ℚ) ≤ (if 2 ≤ f.vol_strength then (1 : ℚ) / 20 else 0) ∧
        (if 2 ≤ f.vol_strength then (1 : ℚ) / 20 else 0) ≤ 1 / 20 := by
      split <;> norm_num
    simp only [batchStats]
    have h0 : roundTo 4 0 = 0 := by norm_num [roundTo]
    have h1 : roundTo 4 (21 / 20) = 21 / 20 := by norm_num [roundTo]
    constructor
    · refine le_trans (le_of_eq h0.symm) (roundTo_mono 4 ?_)
      linarith [hintr.1, hintr.2, hvol.1, hvol.2, hvz.1, hvz.2, hvlt.1, hvlt.2,
        hsr.1, hsr.2, hbc.1, hbc.2, hrs.1, hrs.2, hmacd.1, hmacd.2,
        htrend.1, htrend.2, hboost.1, hboost.2]
    · refine le_trans (roundTo_mono 4 ?_) (le_of_eq h1)
      linarith [hintr.1, hintr.2, hvol.1, hvol.2, hvz.1, hvz.2, hvlt.1, hvlt.2,
        hsr.1, hsr.2, hbc.1, hbc.2, hrs.1, hrs.2, hmacd.1, hmacd.2,
        htrend.1, htrend.2, hboost.1, hboost.2]

/-- C3 witness: the amended bounds hold at the concrete batch
`[strongCand, weakCand]`. -/
theorem C3_score_bounds_witness :
    0 ≤ ((score_from_features [strongCand, weakCand]).headD ⟨{}, 0⟩).score ∧
    ((score_from_features [strongCand, weakCand]).headD ⟨{}, 0⟩).score ≤ 21 / 20 :=
  C3_score_bounds [strongCand, weakCand]
    (by norm_num [strongCand, weakCand]) _
    (by norm_num [score_from_features, batchStats, pymin, pymax, scoreEntry, normalize,
      strongCand, weakCand, roundTo, List.insertionSort, List.orderedInsert, scoreGE])

/-- C4 counterexample: the batch `[tieCandB, tieCandA]` (symbols `2` then `1`,
both filtered to score `0`) is returned in input order `[2, 1]`, not in
ascending symbol order `[1, 2]`: the stable sort breaks ties by input
position, never by symbol. -/
theorem C4_counterexample :
    (score_from_features [tieCandB, tieCandA]).map (fun s => s.feats.symbol) = [2, 1] ∧
    (score_from_features [tieCandB, tieCandA]).map (fun s => s.score) = [0, 0] := by
  norm_num [score_from_features, batchStats, pymin, pymax, scoreEntry, normalize,
    tieCandA, tieCandB, roundTo, List.insertionSort, List.orderedInsert, scoreGE]

/-- C4 as amended: every batch cycle's ranking is sorted non-increasing by
score and is a permutation of the per-candidate scored entries, and any two
entries whose input order already agrees with the descending-score order (in
particular any two equal-score entries, in input order) are preserved in that
order — ties are broken by input position (stable sort), not by symbol
name. -/
theorem C4_ranking_sorted (fs : List Features) :
    (score_from_features fs).Sorted scoreGE ∧
    List.Perm (score_from_features fs) (fs.map (scoreEntry (batchStats fs))) ∧
    (∀ a b : Scored, scoreGE a b → List.Sublist [a, b] (fs.map (scoreEntry (batchStats fs))) →
      List.Sublist [a, b] (score_from_features fs)) := by
  match fs with
  | [] =>
    refine ⟨List.sorted_nil, by simp [score_from_features], ?_⟩
    intro a b _ hab
    simp at hab
  | g :: t =>
    rw [score_from_features]
    exact ⟨List.sorted_insertionSort scoreGE _,
      List.perm_insertionSort scoreGE _,
      fun a b h1 h2 => List.pair_sublist_insertionSort h1 h2⟩

/-- C4 witness: the stability clause applied to the concrete tie batch
`[tieCandB, tieCandA]`, whose two entries share score `0`. -/
theorem C4_ranking_sorted_witness :
    List.Sublist [(⟨tieCandB, 0⟩ : Scored), ⟨tieCandA, 0⟩] (score_from_features [tieCandB, tieCandA]) :=
  (C4_ranking_sorted [tieCandB, tieCandA]).2.2 ⟨tieCandB, 0⟩ ⟨tieCandA, 0⟩
    (by norm_num [scoreGE])
    (by norm_num [batchStats, pymin, pymax, scoreEntry, normalize, tieCandA, tieCandB,
      roundTo])

/-- C10: for a single-element batch whose snapshot passes the volume filter,
every batch-relative min-max component normalizes to `1/2` (batch min equals
batch max), so the returned score is exactly
`round(0.395 + 0.10·[macd_trend = 1] + 0.05·[ma_diff > 0] + 0.06·s_rsi
 + (0.05 if vol_strength ≥ 2 else 0), 4)` with
`s_rsi = 0.2 if rsi > 70 else 1 - |rsi - 50|/50`: the batch-relative features
contribute only the constant `0.395` and carry no ranking information when a
symbol is analyzed in isolation (as `StockModel.analyze_stock` does). -/
theorem C10_singleton_score (f : Features) (hv : 1 / 2 ≤ f.vol_strength) :
    score_from_features [f] =
      [⟨f, roundTo 4 (79 / 200 + (if f.macd_trend = 1 then (1 : ℚ) / 10 else 0) +
        (if 0 < f.ma_diff then (1 : ℚ) / 20 else 0) +
        6 / 100 * (if 70 < f.rsi then (1 : ℚ) / 5 else 1 - |f.rsi - 50| / 50) +
        (if 2 ≤ f.vol_strength then (1 : ℚ) / 20 else 0))⟩] := by
  rw [score_from_features]
  simp only [List.map, List.insertionSort, List.orderedInsert]
  rw [scoreEntry, if_neg (not_lt.mpr hv)]
  simp only [batchStats, pymin, pymax, List.map]
  simp only [normalize, if_pos rfl]
  congr 2
  by_cases hm : f.macd_trend = 1 <;> by_cases ht : 0 < f.ma_diff <;>
    by_cases hb : 2 ≤ f.vol_strength <;>
    simp [hm, ht, hb] <;> norm_num <;> ring_nf

/-- C10 witness: the singleton-batch formula evaluated at `soloCand`
(`macd_trend = 1`, `ma_diff > 0`, `rsi = 60`, no volume boost) gives
`0.593`. -/
theorem C10_singleton_score_witness :
    score_from_features [soloCand] = [⟨soloCand, 593 / 1000⟩] := by
  rw [C10_singleton_score soloCand (by norm_num [soloCand])]
  norm_num [soloCand, roundTo]

/-! ## Claim theorems for the quote cache and fetch retry policy
(`backend/scheduler.py`, `_fetch_and_compute`) -/

/-- Updating a cache key makes the new entry the one returned for that key. -/
theorem cacheGet_cachePut (c : PriceCache) (sym : Symbol) (t : ℚ) (f : Features) :
    cacheGet (cachePut c sym t f) sym = some (t, f) := by
  induction c with
  | nil => simp [cachePut, cacheGet]
  | cons e rest ih =>
    obtain ⟨s, t0, f0⟩ := e
    by_cases hs : s = sym
    · simp [cachePut, cacheGet, hs]
    · simp [cachePut, cacheGet, hs, ih]

/-- C5: if the cache holds a snapshot for a symbol whose age `now - t` is
below `CACHE_TTL` (90 s), the get returns that snapshot unchanged with zero
real fetches; once the TTL has elapsed, the next get runs a real fetch (one
attempt here, succeeding) and repopulates the cache with the new snapshot,
timestamped `now`. -/
theorem C5_cache_freshness (cache : PriceCache) (now t : ℚ) (sym : Symbol)
    (oracle : Nat → FetchOutcome) (f : Features)
    (hget : cacheGet cache sym = some (t, f)) :
    (now - t < CACHE_TTL →
      fetch_and_compute cache now sym oracle = ⟨some f, cache, 0, []⟩) ∧
    (CACHE_TTL ≤ now - t → ∀ g, oracle 1 = .ok g →
      fetch_and_compute cache now sym oracle =
        ⟨some { g with symbol := sym }, cachePut cache sym now { g with symbol := sym }, 1, []⟩ ∧
      cacheGet (fetch_and_compute cache now sym oracle).cache sym =
        some (now, { g with symbol := sym })) := by
  constructor
  · intro hfresh
    rw [fetch_and_compute, hget]
    simp [hfresh]
  · intro hstale g hok
    have hrun : fetch_and_compute cache now sym oracle =
        ⟨some { g with symbol := sym }, cachePut cache sym now { g with symbol := sym }, 1, []⟩ := by
      have hlt : ¬(now - t < CACHE_TTL) := not_lt.mpr hstale
      rw [fetch_and_compute, hget]
      simp [hlt, fetchLoop, hok]
    exact ⟨hrun, by rw [hrun]; exact cacheGet_cachePut cache sym now _⟩

/-- C5 witness: a snapshot captured at `t = 10` read at `now = 50` (age 40 s,
fresh) is served from the cache with no fetch. -/
theorem C5_cache_freshness_witness :
    fetch_and_compute [(0, 10, soloCand)] 50 0 transientOracle =
      ⟨some soloCand, [(0, 10, soloCand)], 0, []⟩ :=
  (C5_cache_freshness [(0, 10, soloCand)] 50 10 0 transientOracle soloCand
    (by norm_num [cacheGet])).1 (by norm_num [CACHE_TTL])

/-- C6 counterexample: a fetch unit whose first attempt raises a transient
(non-rate-limited) error is not retried at all — the loop breaks after one
attempt with no result — although the claim requires up to 3 attempts and
inclusion of the eventual success. -/
theorem C6_counterexample :
    (fetch_and_compute [] 0 0 transientOracle).result = none ∧
    (fetch_and_compute [] 0 0 transientOracle).fetchCalls = 1 := by
  norm_num [fetch_and_compute, cacheGet, fetchLoop, transientOracle]

/-- C6 as amended: on a cache miss, only rate-limited errors are retried,
with backoff delay `base·attempt` (base 2) and at most 3 attempts; any other
exception fails the symbol immediately after a single attempt; a unit that is
rate-limited twice and then succeeds is fetched 3 times, sleeps `[2, 4]`, and
its result is still produced (hence included in the ranking). -/
theorem C6_retry_policy (now : ℚ) (sym : Symbol) (oracle : Nat → FetchOutcome) (g : Features) :
    (oracle 1 = .exn false →
      fetch_and_compute [] now sym oracle = ⟨none, [], 1, []⟩) ∧
    (oracle 1 = .exn true → oracle 2 = .exn true → oracle 3 = .ok g →
      fetch_and_compute [] now sym oracle =
        ⟨some { g with symbol := sym },
         cachePut [] sym now { g with symbol := sym }, 3, [2, 4]⟩) ∧
    (oracle 1 = .exn true → oracle 2 = .exn true → oracle 3 = .exn true →
      fetch_and_compute [] now sym oracle = ⟨none, [], 3, [2, 4, 6]⟩) := by
  refine ⟨fun h1 => ?_, fun h1 h2 h3 => ?_, fun h1 h2 h3 => ?_⟩ <;>
    · rw [fetch_and_compute]
      norm_num [cacheGet, fetchLoop, h1]
      try norm_num [h2, h3]

/-- C6 witness: the rate-limited-twice-then-success oracle is retried three
times with sleeps `[2, 4]` and still yields its snapshot. -/
theorem C6_retry_policy_witness :
    fetch_and_compute [] 0 7 rateLimitedTwiceOracle =
      ⟨some { soloCand with symbol := 7 },
       cachePut [] 7 0 { soloCand with symbol := 7 }, 3, [2, 4]⟩ :=
  (C6_retry_policy 0 7 rateLimitedTwiceOracle soloCand).2.1
    (by norm_num [rateLimitedTwiceOracle]) (by norm_num [rateLimitedTwiceOracle])
    (by norm_num [rateLimitedTwiceOracle])

/-! ## Claim theorem for the new-leader notification
(`backend/scheduler.py`, `run_top_picks_once`) -/

/-! ## Claim theorems for the position monitor (spec-modelled; see the
monitor section above) -/

/-- The milestone fold only ever appends to the sent-key list. -/
theorem milestoneFold_grows (sym : Symbol) (entry pmax current : ℚ) :
    ∀ (fracs : List ℚ) (acc : List ℚ × List Alert),
      List.IsPrefix acc.1 ((fracs.foldl (milestoneStep sym entry pmax current) acc).1) := by
  intro fracs
  induction fracs with
  | nil => intro acc; exact List.prefix_refl _
  | cons f fs ih =>
    intro acc
    rw [List.foldl_cons]
    refine List.IsPrefix.trans ?_ (ih (milestoneStep sym entry pmax current acc f))
    rw [milestoneStep]
    split
    · exact List.prefix_append _ _
    · exact List.prefix_refl _

/-- The milestone fold never emits an alert for a key already in the sent
list at the start of the fold. -/
theorem milestoneFold_no_refire (sym : Symbol) (entry pmax current k : ℚ) :
    ∀ (fracs : List ℚ) (acc : List ℚ × List Alert), k ∈ acc.1 →
      Alert.profitMilestone sym k ∈ (fracs.foldl (milestoneStep sym entry pmax current) acc).2 →
      Alert.profitMilestone sym k ∈ acc.2 := by
  intro fracs
  induction fracs with
  | nil => intro acc _ hmem; exact hmem
  | cons f fs ih =>
    intro acc hk hmem
    rw [List.foldl_cons] at hmem
    have hk1 : k ∈ (milestoneStep sym entry pmax current acc f).1 := by
      rw [milestoneStep]
      split
      · exact List.mem_append_left _ hk
      · exact hk
    have hmem1 := ih (milestoneStep sym entry pmax current acc f) hk1 hmem
    rw [milestoneStep] at hmem1
    split at hmem1
    · rename_i hcond
      rcases List.mem_append.mp hmem1 with h | h
      · exact h
      · exfalso
        have heq : k = entry + (pmax - entry) * f := by
          simpa using List.mem_singleton.mp h
        exact hcond.2 (heq ▸ hk)
    · exact hmem1

/-- The milestone pass only grows the sent-key list. -/
theorem milestoneScan_subset (pos : Position) (current : ℚ) :
    pos.profitAlertsSent ⊆ (milestoneScan pos current).1 := by
  rw [milestoneScan]
  match pos.predictedMax with
  | none => exact fun x h => h
  | some pmax =>
    simp only
    split
    · exact (milestoneFold_grows pos.symbol pos.entryPrice pmax current
        MILESTONE_FRACTIONS (pos.profitAlertsSent, [])).subset
    · exact fun x h => h

/-- The stop pass only grows the sent-key list. -/
theorem stopScan_subset (pos : Position) (current : ℚ) :
    pos.stopAlertsSent ⊆ (stopScan pos current).1 := by
  rw [stopScan]
  split
  · split
    · refine List.Subset.trans ?_ (List.subset_append_left _ _)
      exact List.subset_append_left _ _
    · exact List.subset_append_left _ _
  · split
    · exact List.subset_append_left _ _
    · exact fun x h => h

/-- The milestone pass never re-fires an already-recorded key. -/
theorem milestoneScan_no_refire (pos : Position) (current : ℚ) (k : ℚ)
    (hk : k ∈ pos.profitAlertsSent) :
    Alert.profitMilestone pos.symbol k ∉ (milestoneScan pos current).2 := by
  rw [milestoneScan]
  match pos.predictedMax with
  | none => simp
  | some pmax =>
    simp only
    split
    · intro hmem
      have := milestoneFold_no_refire pos.symbol pos.entryPrice pmax current k
        MILESTONE_FRACTIONS (pos.profitAlertsSent, []) hk hmem
      simp at this
    · simp

/-- Every alert appended by the milestone fold is a profit-milestone alert. -/
theorem milestoneFold_alerts_shape (sym : Symbol) (entry pmax current : ℚ) :
    ∀ (fracs : List ℚ) (acc : List ℚ × List Alert) (a : Alert),
      a ∈ (fracs.foldl (milestoneStep sym entry pmax current) acc).2 →
      a ∈ acc.2 ∨ ∃ p, a = Alert.profitMilestone sym p := by
  intro fracs
  induction fracs with
  | nil => intro acc a h; exact Or.inl h
  | cons f fs ih =>
    intro acc a h
    rw [List.foldl_cons] at h
    rcases ih (milestoneStep sym entry pmax current acc f) a h with h1 | h1
    · rw [milestoneStep] at h1
      split at h1
      · rcases List.mem_append.mp h1 with h2 | h2
        · exact Or.inl h2
        · exact Or.inr ⟨_, List.mem_singleton.mp h2⟩
      · exact Or.inl h1
    · exact Or.inr h1

/-- Every alert emitted by the milestone pass is a profit-milestone alert. -/
theorem milestoneScan_alerts (pos : Position) (current : ℚ) (a : Alert)
    (h : a ∈ (milestoneScan pos current).2) :
    ∃ p, a = Alert.profitMilestone pos.symbol p := by
  revert h
  rw [milestoneScan]
  match pos.predictedMax with
  | none => simp
  | some pmax =>
    simp only
    split
    · intro h
      rcases milestoneFold_alerts_shape pos.symbol pos.entryPrice pmax current
        MILESTONE_FRACTIONS (pos.profitAlertsSent, []) a h with h1 | h1
      · simp at h1
      · exact h1
    · simp

/-- Every alert emitted by the stop pass is a stop-loss alert for a key that
was not yet recorded. -/
theorem stopScan_alerts (pos : Position) (current : ℚ) (a : Alert)
    (h : a ∈ (stopScan pos current).2) :
    (a = Alert.stopLoss pos.symbol StopKey.soft ∧ StopKey.soft ∉ pos.stopAlertsSent) ∨
    (a = Alert.stopLoss pos.symbol StopKey.hard ∧ StopKey.hard ∉ pos.stopAlertsSent) := by
  by_cases hS : current ≤ pos.entryPrice * (1 - pos.softStopPct / 100) ∧
      StopKey.soft ∉ pos.stopAlertsSent
  · by_cases hH : current ≤ pos.entryPrice * (1 - pos.hardStopPct / 100) ∧
        StopKey.hard ∉ pos.stopAlertsSent
    · simp [stopScan, hS, hH] at h
      rcases h with h | h
      · exact Or.inl ⟨h, hS.2⟩
      · exact Or.inr ⟨h, hH.2⟩
    · simp [stopScan, hS, hH] at h
      exact Or.inl ⟨h, hS.2⟩
  · by_cases hH : current ≤ pos.entryPrice * (1 - pos.hardStopPct / 100) ∧
        StopKey.hard ∉ pos.stopAlertsSent
    · simp [stopScan, hS, hH] at h
      exact Or.inr ⟨h, hH.2⟩
    · simp [stopScan, hS, hH] at h

/-- The stop pass never re-fires an already-recorded key. -/
theorem stopScan_no_refire (pos : Position) (current : ℚ) (k : StopKey)
    (hk : k ∈ pos.stopAlertsSent) :
    Alert.stopLoss pos.symbol k ∉ (stopScan pos current).2 := by
  intro hmem
  rcases stopScan_alerts pos current _ hmem with ⟨heq, hns⟩ | ⟨heq, hns⟩ <;>
    · simp only [Alert.stopLoss.injEq] at heq
      exact hns (heq.2 ▸ hk)

/-- C1: while a position is OPEN each profit-milestone key and each stop key
is alerted at most once — the alert-sent sets only grow under a monitor
cycle, a cycle that finds a key already present emits no further alert for
that key, and in the concrete scenario (`entryPrice = 100`,
`predictedMax = 200`, prices `[130, 135, 140]`) exactly one profit alert is
emitted (the 25% milestone at price 125), not three. -/
theorem C1_milestone_dedup :
    (∀ pos price, pos.profitAlertsSent ⊆ (monitor_position pos price).1.profitAlertsSent ∧
      pos.stopAlertsSent ⊆ (monitor_position pos price).1.stopAlertsSent) ∧
    (∀ pos price (k : ℚ), k ∈ pos.profitAlertsSent →
      Alert.profitMilestone pos.symbol k ∉ (monitor_position pos price).2) ∧
    (∀ pos price (k : StopKey), k ∈ pos.stopAlertsSent →
      Alert.stopLoss pos.symbol k ∉ (monitor_position pos price).2) ∧
    (monitorTicks demoPosition [130, 135, 140]).2 = [Alert.profitMilestone 3 125] := by
  refine ⟨fun pos price => ?_, fun pos price k hk => ?_, fun pos price k hk => ?_, ?_⟩
  · rw [monitor_position]
    split
    · exact ⟨fun x h => h, fun x h => h⟩
    · exact ⟨milestoneScan_subset pos price, stopScan_subset pos price⟩
  · rw [monitor_position]
    split
    · simp
    · intro hmem
      rcases List.mem_append.mp hmem with h | h
      · exact milestoneScan_no_refire pos price k hk h
      · rcases stopScan_alerts pos price _ h with ⟨heq, h2⟩ | ⟨heq, h2⟩ <;> simp at heq
  · rw [monitor_position]
    split
    · simp
    · intro hmem
      rcases List.mem_append.mp hmem with h | h
      · rcases milestoneScan_alerts pos price _ h with ⟨p, hp⟩
        simp at hp
      · exact stopScan_no_refire pos price k hk h
  · norm_num [monitorTicks, monitor_position, milestoneScan, stopScan, milestoneStep,
      MILESTONE_FRACTIONS, demoPosition]

/-- C1 witness: a cycle at price 130 on a position whose 25% milestone key
(price 125) is already recorded emits no further alert for that key. -/
theorem C1_milestone_dedup_witness :
    Alert.profitMilestone 3 125 ∉ (monitor_position demoPositionSent 130).2 :=
  C1_milestone_dedup.2.1 demoPositionSent 130 125 (by norm_num [demoPositionSent])

/-- Updating a symbol's cooldown timestamp makes it the recorded one. -/
theorem lookupWarnTs_putWarnTs (tbl : CooldownTable) (sym : Symbol) (t : ℚ) :
    lookupWarnTs (putWarnTs tbl sym t) sym = some t := by
  induction tbl with
  | nil => simp [putWarnTs, lookupWarnTs]
  | cons e rest ih =>
    obtain ⟨s, t0⟩ := e
    by_cases hs : s = sym
    · simp [putWarnTs, lookupWarnTs, hs]
    · simp [putWarnTs, lookupWarnTs, hs, ih]

/-- The throttled warning fires exactly when its condition holds. -/
theorem approaching_stop_warn_warned (tbl : CooldownTable) (now : ℚ) (sym : Symbol)
    (entry current pct : ℚ) :
    (approaching_stop_warn tbl now sym entry current pct).warned =
      warnCondition tbl now sym entry current pct := by
  rw [approaching_stop_warn]
  split <;> simp_all

/-- The throttled warning updates the table exactly when it fires. -/
theorem approaching_stop_warn_table (tbl : CooldownTable) (now : ℚ) (sym : Symbol)
    (entry current pct : ℚ) :
    (approaching_stop_warn tbl now sym entry current pct).table =
      (if warnCondition tbl now sym entry current pct then putWarnTs tbl sym now else tbl) := by
  rw [approaching_stop_warn]
  split <;> simp_all

/-- C7 (spec-modelled): the "approaching stop" warning is throttled per
symbol — a tick emits the warning only if the cooldown window has elapsed
since the symbol's recorded last warning, emitting records `now` as the
symbol's `lastWarnTimestamp`, and a second tick within the window after an
emitted warning emits nothing. -/
theorem C7_warn_cooldown :
    (∀ (tbl : CooldownTable) (now : ℚ) (sym : Symbol) (entry current pct t : ℚ),
      (approaching_stop_warn tbl now sym entry current pct).warned = true →
      lookupWarnTs tbl sym = some t →
      COOLDOWN_WINDOW ≤ now - t) ∧
    (∀ (tbl : CooldownTable) (now : ℚ) (sym : Symbol) (entry current pct : ℚ),
      (approaching_stop_warn tbl now sym entry current pct).warned = true →
      lookupWarnTs (approaching_stop_warn tbl now sym entry current pct).table sym = some now) ∧
    (∀ (tbl : CooldownTable) (now1 now2 : ℚ) (sym : Symbol) (entry current1 current2 pct : ℚ),
      (approaching_stop_warn tbl now1 sym entry current1 pct).warned = true →
      now2 - now1 < COOLDOWN_WINDOW →
      (approaching_stop_warn (approaching_stop_warn tbl now1 sym entry current1 pct).table
        now2 sym entry current2 pct).warned = false) := by
  refine ⟨fun tbl now sym entry current pct t h ht => ?_,
    fun tbl now sym entry current pct h => ?_,
    fun tbl now1 now2 sym entry current1 current2 pct h1 hlt => ?_⟩
  · rw [approaching_stop_warn_warned] at h
    simp only [warnCondition, ht, Bool.and_eq_true, decide_eq_true_eq] at h
    exact h.2
  · rw [approaching_stop_warn_warned] at h
    rw [approaching_stop_warn_table, if_pos h]
    exact lookupWarnTs_putWarnTs tbl sym now
  · rw [approaching_stop_warn_warned] at h1
    have htbl : (approaching_stop_warn tbl now1 sym entry current1 pct).table =
        putWarnTs tbl sym now1 := by
      rw [approaching_stop_warn_table, if_pos h1]
    rw [approaching_stop_warn_warned, htbl]
    simp [warnCondition, lookupWarnTs_putWarnTs, not_le.mpr hlt]

/-- C7 witness: with entry 100, price 90 and hard stop 7% (loss 10 exceeds
60% of the stop distance 7), a first tick at time 0 warns; a second tick
300 s later (inside the 900 s window) does not. -/
theorem C7_warn_cooldown_witness :
    (approaching_stop_warn (approaching_stop_warn [] 0 1 100 90 7).table
      300 1 100 90 7).warned = false :=
  C7_warn_cooldown.2.2 [] 0 300 1 100 90 90 7
    (by norm_num [approaching_stop_warn, warnCondition, lookupWarnTs,
      SECONDARY_STOP_FRACTION])
    (by norm_num [COOLDOWN_WINDOW])

/-- C8, evaluated at the failing input: the previous cycle recorded symbol `0`
with score `0.3`; this cycle scores it `0.9`.  The claim (and the spec's
hysteresis design) requires a new-leader notification since
`0.9 > 0.3 + 0.05` (second conjunct), but the code compares the new best
against the table read back after this cycle's own upserts — here `0.9` —
tests `0.9 > 0.9 + 0.05`, and emits nothing.  The read-back best is always at
least the new best, so the notification can never fire once the table is
populated. -/
theorem C8_notification_dead :
    (run_top_picks_once [(0, 3 / 10)] [⟨{}, 9 / 10⟩]).notified = false ∧
    (3 : ℚ) / 10 + 1 / 20 < 9 / 10 := by
  norm_num [run_top_picks_once, upsert_all_stock, get_current_top_scores,
    List.insertionSort, List.orderedInsert, rowGE]

/-! ## Claim theorems for the Feature Engine (`backend/utils/market.py`) -/

/-- C9 counterexample: a frame holding exactly one bar — fewer than the
claimed minimum of 2 — still produces a feature snapshot, not `None`. -/
theorem C9_counterexample :
    compute_features sqrtZero (some [oneBar]) ≠ none := by
  simp [compute_features]

/-- C9 as amended: `compute_features` returns `None` exactly when the frame
is absent or holds no bars at all (or lacks a required column, which the
typed embedding rules out); the claimed minimum bar count of 2 is not
enforced — a one-bar frame yields a snapshot.  This holds for every
square-root interpretation. -/
theorem C9_none_iff_empty (sqrt : ℚ → ℚ) (df : Option (List Bar)) :
    compute_features sqrt df = none ↔ df = none ∨ df = some [] := by
  match df with
  | none => simp [compute_features]
  | some [] => simp [compute_features]
  | some (b :: rest) => simp [compute_features]

end TG
